import Mathlib

/-!
Shallow embedding of the dataframe-filtering core of `src/App.py`
(function `filter_dataframe`, lines 84-145), together with the small
fragment of the pandas / Python `re` behaviour that the function relies on.

Modelling conventions:
* A pandas `DataFrame` is a header (ordered column names with dtypes) plus
  row-major data; all cells carry a `Value`.
* Machine numbers are modelled as `Int` (the slider in the source works on
  floats, but only the inclusive `between` comparison matters here).
* A temporal instant is an `Int` wall-clock stamp together with an optional
  timezone offset; `Series.dt.tz_localize(None)` drops the offset and keeps
  the wall clock, which is exactly what the source's line 103 does.
* `pd.to_datetime` applied to a whole object column either converts every
  value or raises; the raise is caught by the source's `except ... pass`,
  so the column conversion is modelled as an `Option` on the whole column.
* `Series.str.contains(pat)` compiles `pat` as a regular expression
  (pandas default `regex=True`, Python `re.search` semantics); a pattern
  that does not compile raises, which the host app only catches at top
  level, so the filter pass as a whole returns `Option DataFrame`
  (`none` = an exception escaped the pass).
-/

/-- A cell value: a machine number, a piece of text, a temporal instant
(wall clock plus optional timezone offset), or a missing value
(NaN / NaT / None collapse to one missing marker). -/
inductive Value
  | num (n : Int)
  | str (s : String)
  | time (t : Int) (tz : Option Int)
  | null
deriving DecidableEq

/-- The pandas dtype of a column, as far as the source inspects it
(`is_categorical_dtype`, `is_numeric_dtype`, `is_datetime64_any_dtype`,
`is_object_dtype`). -/
inductive Dtype
  | categorical
  | numeric
  | datetime
  | object
deriving DecidableEq

/-- One header entry: a column name with its dtype. -/
structure ColHeader where
  name : String
  dtype : Dtype
deriving DecidableEq

/-- A dataframe: ordered named columns and row-major cells.
Well-formed frames have every row of the same length as the header. -/
structure DataFrame where
  header : List ColHeader
  rows : List (List Value)
deriving DecidableEq

/-- Rows all have as many cells as the header has columns. -/
def DataFrame.WF (df : DataFrame) : Prop :=
  ∀ r ∈ df.rows, r.length = df.header.length

instance (df : DataFrame) : Decidable df.WF := by
  unfold DataFrame.WF; infer_instance

/-- Cell `i` of a row (missing cells of a ragged row read as `null`,
which never happens on well-formed frames). -/
def cell (r : List Value) (i : Nat) : Value :=
  r.getD i Value.null

/-- The values of column `i`, top to bottom. -/
def colValues (df : DataFrame) (i : Nat) : List Value :=
  df.rows.map (fun r => cell r i)

/-- The dtype of column `i`. -/
def dtypeOf (df : DataFrame) (i : Nat) : Dtype :=
  (df.header.getD i ⟨"", Dtype.object⟩).dtype

/-- `Series.nunique()`: the number of distinct values of a column, with
missing values dropped (pandas default `dropna=True`). -/
def nunique (df : DataFrame) (i : Nat) : Nat :=
  (((colValues df i).filter (fun v => v ≠ Value.null)).dedup).length

/-- The numeric cells of column `i` (pandas `min`/`max` skip NaN). -/
def colNums (df : DataFrame) (i : Nat) : List Int :=
  (colValues df i).filterMap (fun v =>
    match v with
    | Value.num n => some n
    | _ => none)

/-- `float(df[column].min())`: the observed minimum of a numeric column. -/
def colMin (df : DataFrame) (i : Nat) : Option Int :=
  match colNums df i with
  | [] => none
  | n :: t => some (t.foldl min n)

/-- `float(df[column].max())`: the observed maximum of a numeric column. -/
def colMax (df : DataFrame) (i : Nat) : Option Int :=
  match colNums df i with
  | [] => none
  | n :: t => some (t.foldl max n)

/-! ### The `pd.to_datetime` / `tz_localize` preprocessing (lines 95-103) -/

/-- `pd.to_datetime` on one cell, parameterised by the external string
parser `parse` (the pandas date parser is a library black box; the model
is parametric in it).  Missing values become NaT, numbers are read as
epoch stamps, existing instants pass through; a string parses iff `parse`
accepts it.  `none` = this cell makes the whole-column conversion raise. -/
def parseCell (parse : String → Option (Int × Option Int)) : Value → Option Value
  | Value.str s => (parse s).map (fun p => Value.time p.1 p.2)
  | Value.null => some Value.null
  | Value.num n => some (Value.time n none)
  | Value.time t tz => some (Value.time t tz)

/-- `pd.to_datetime(df[col])` on a whole column: every cell must convert,
otherwise the conversion raises (modelled as `none`). -/
def toDatetimeCol (parse : String → Option (Int × Option Int)) :
    List Value → Option (List Value)
  | [] => some []
  | v :: t =>
    match parseCell parse v, toDatetimeCol parse t with
    | some w, some ws => some (w :: ws)
    | _, _ => none

/-- `Series.dt.tz_localize(None)`: drop the timezone offset, keep the
wall clock. -/
def tzLocalizeNone : Value → Value
  | Value.time t _ => Value.time t none
  | v => v

/-- Overwrite column `i` with the given values (row by row). -/
def setColValues (i : Nat) (vs : List Value) (rows : List (List Value)) :
    List (List Value) :=
  (rows.zip vs).map (fun p => p.1.set i p.2)

/-- Lines 96-100: if the column is object-dtyped, try to convert the
whole column to datetime, silently keeping the column unchanged when the
conversion raises. -/
def convertCol (parse : String → Option (Int × Option Int))
    (df : DataFrame) (i : Nat) : DataFrame :=
  if dtypeOf df i = Dtype.object then
    match toDatetimeCol parse (colValues df i) with
    | some vs =>
      { header := df.header.set i ⟨(df.header.getD i ⟨"", Dtype.object⟩).name,
                                   Dtype.datetime⟩,
        rows := setColValues i vs df.rows }
    | none => df
  else df

/-- Lines 102-103: if the column is datetime-dtyped, strip timezone
offsets. -/
def tzCol (df : DataFrame) (i : Nat) : DataFrame :=
  if dtypeOf df i = Dtype.datetime then
    { df with rows := df.rows.map (fun r => r.set i (tzLocalizeNone (cell r i))) }
  else df

/-- The body of the preprocessing loop (lines 95-103) for one column. -/
def preprocessCol (parse : String → Option (Int × Option Int))
    (df : DataFrame) (i : Nat) : DataFrame :=
  tzCol (convertCol parse df i) i

/-- The preprocessing loop over every column of the frame. -/
def preprocess (parse : String → Option (Int × Option Int))
    (df : DataFrame) : DataFrame :=
  (List.range df.header.length).foldl (preprocessCol parse) df

/-! ### The fragment of Python regular expressions used by
`Series.str.contains` (line 144).  Python's `re.search` is a library
black box; the model implements the fragment the source's patterns can
exercise (literal characters, `.`, grouping, alternation, `*` `+` `?`,
backslash-escaped literals) with Brzozowski derivatives, and rejects the
patterns `re.compile` rejects on this fragment (unbalanced parentheses,
dangling repetition operators, trailing backslash). -/

/-- Regular expressions. -/
inductive Regex
  | emptyset
  | epsilon
  | char (c : Char)
  | anyChar
  | cat (a b : Regex)
  | alt (a b : Regex)
  | star (a : Regex)
deriving DecidableEq

/-- Does the language of `r` contain the empty string? -/
def Regex.nullable : Regex → Bool
  | .emptyset => false
  | .epsilon => true
  | .char _ => false
  | .anyChar => false
  | .cat a b => a.nullable && b.nullable
  | .alt a b => a.nullable || b.nullable
  | .star _ => true

/-- Brzozowski derivative of `r` by the character `x`. -/
def Regex.deriv : Regex → Char → Regex
  | .emptyset, _ => .emptyset
  | .epsilon, _ => .emptyset
  | .char c, x => if c = x then .epsilon else .emptyset
  | .anyChar, _ => .epsilon
  | .cat a b, x =>
    if a.nullable then .alt (.cat (a.deriv x) b) (b.deriv x)
    else .cat (a.deriv x) b
  | .alt a b, x => .alt (a.deriv x) (b.deriv x)
  | .star a, x => .cat (a.deriv x) (.star a)

/-- Does `r` match the whole character list? -/
def Regex.matches? (r : Regex) (cs : List Char) : Bool :=
  (cs.foldl Regex.deriv r).nullable

/-- `re.search(r, s)`: does `r` match somewhere inside `s`?
Encoded as a whole-string match of `.*r.*`. -/
def Regex.searchB (r : Regex) (s : String) : Bool :=
  Regex.matches? (.cat (.star .anyChar) (.cat r (.star .anyChar))) s.data

/-- Recursive-descent pattern reader.  `level` 0 parses an alternation,
1 a concatenation, 2 one atom with an optional repetition operator.
`fuel` only bounds the recursion; `Regex.compile` supplies enough for
any input.  `none` = the pattern does not compile (`re.error`). -/
def parseRx : Nat → Nat → List Char → Option (Regex × List Char)
  | 0, _, _ => none
  | fuel + 1, 0, cs =>
    match parseRx fuel 1 cs with
    | none => none
    | some (r, rest) =>
      match rest with
      | '|' :: rest2 =>
        match parseRx fuel 0 rest2 with
        | none => none
        | some (r2, rest3) => some (.alt r r2, rest3)
      | _ => some (r, rest)
  | fuel + 1, 1, cs =>
    match cs with
    | [] => some (.epsilon, [])
    | c :: _ =>
      if c = '|' ∨ c = ')' then some (.epsilon, cs)
      else
        match parseRx fuel 2 cs with
        | none => none
        | some (r, rest) =>
          match parseRx fuel 1 rest with
          | none => none
          | some (r2, rest2) => some (.cat r r2, rest2)
  | fuel + 1, _, cs =>
    match cs with
    | [] => none
    | '(' :: rest =>
      (match parseRx fuel 0 rest with
       | none => none
       | some (r, rest2) =>
         match rest2 with
         | ')' :: rest3 => some (repOps r rest3)
         | _ => none)
    | '\\' :: rest =>
      (match rest with
       | [] => none
       | c :: rest2 => some (repOps (.char c) rest2))
    | '.' :: rest => some (repOps .anyChar rest)
    | c :: rest =>
      if c = '*' ∨ c = '+' ∨ c = '?' ∨ c = ')' ∨ c = '|' then none
      else some (repOps (.char c) rest)
where
  /-- Attach one optional repetition operator to a parsed atom. -/
  repOps (r : Regex) : List Char → Regex × List Char
    | '*' :: rest => (.star r, rest)
    | '+' :: rest => (.cat r (.star r), rest)
    | '?' :: rest => (.alt r .epsilon, rest)
    | rest => (r, rest)

/-- `re.compile(pat)` on the modelled fragment: the whole pattern must be
consumed. -/
def Regex.compile (pat : String) : Option Regex :=
  match parseRx (4 * pat.length + 8) 0 pat.data with
  | some (r, []) => some r
  | _ => none

/-! ### The filter loop (lines 108-145) -/

/-- `str(value)`: the string form `Series.astype(str)` gives a cell
(pandas renders a missing value as the string `nan`). -/
def strForm : Value → String
  | Value.str s => s
  | Value.num n => toString n
  | Value.time t _ => toString t
  | Value.null => "nan"

/-- `Series.between(lo, hi)` on a numeric column: inclusive at both ends,
false on anything that is not a number (NaN compares false). -/
def numBetween (lo hi : Int) : Value → Bool
  | Value.num n => decide (lo ≤ n) && decide (n ≤ hi)
  | _ => false

/-- `Series.between(start, end)` on a datetime column: inclusive at both
ends, false on NaT / anything that is not an instant. -/
def timeBetween (lo hi : Int) : Value → Bool
  | Value.time t _ => decide (lo ≤ t) && decide (t ≤ hi)
  | _ => false

/-- `df[mask]`: keep exactly the rows satisfying the predicate, in order. -/
def filterRows (df : DataFrame) (p : List Value → Bool) : DataFrame :=
  { df with rows := df.rows.filter p }

/-- The per-column filter parameter the UI widgets hand the loop body:
a multiselect for the categorical branch, a slider range for the numeric
branch, a date list (one or two endpoints) for the datetime branch, and a
pattern string for the text branch. -/
inductive FilterParam
  | catSel (allowed : List Value)
  | range (lo hi : Int)
  | dates (ds : List Int)
  | text (pattern : String)
deriving DecidableEq

/-- The four semantic column kinds of the loop's `if`-chain. -/
inductive Kind
  | categorical
  | numeric
  | temporal
  | text
deriving DecidableEq

/-- Which branch of the loop body (lines 111-144) column `i` takes:
`is_categorical_dtype(df[column]) or df[column].nunique() < 10`, then
`elif is_numeric_dtype`, then `elif is_datetime64_any_dtype`, else text. -/
def kindOf (df : DataFrame) (i : Nat) : Kind :=
  if dtypeOf df i = Dtype.categorical ∨ nunique df i < 10 then Kind.categorical
  else if dtypeOf df i = Dtype.numeric then Kind.numeric
  else if dtypeOf df i = Dtype.datetime then Kind.temporal
  else Kind.text

/-- One iteration of the filter loop (lines 109-144) for `column`.
`none` models an exception escaping the pass (unknown column / bad
pattern); a parameter whose shape does not fit the branch taken is the
widget's default, i.e. a no-op (the UI only ever supplies the matching
shape).  The categorical test is `isin`, the numeric and datetime tests
are inclusive `between`, the text test is `astype(str).str.contains`
with its pandas-default regex interpretation, skipped for the empty
string (`if user_text_input:`). -/
def applyOne (params : String → FilterParam) (df : DataFrame)
    (column : String) : Option DataFrame :=
  match df.header.findIdx? (fun h => h.name == column) with
  | none => none
  | some i =>
    match kindOf df i with
    | Kind.categorical =>
      match params column with
      | FilterParam.catSel allowed =>
        some (filterRows df (fun r => decide (cell r i ∈ allowed)))
      | _ => some df
    | Kind.numeric =>
      match params column with
      | FilterParam.range lo hi =>
        some (filterRows df (fun r => numBetween lo hi (cell r i)))
      | _ => some df
    | Kind.temporal =>
      match params column with
      | FilterParam.dates ds =>
        match ds with
        | [lo, hi] => some (filterRows df (fun r => timeBetween lo hi (cell r i)))
        | _ => some df
      | _ => some df
    | Kind.text =>
      match params column with
      | FilterParam.text pat =>
        if pat = "" then some df
        else
          match Regex.compile pat with
          | none => none
          | some r => some (filterRows df (fun row => r.searchB (strForm (cell row i))))
      | _ => some df

/-- The filter loop over the user-selected columns, threading the
progressively narrowed frame. -/
def applyFilters (cols : List String) (params : String → FilterParam)
    (df : DataFrame) : Option DataFrame :=
  match cols with
  | [] => some df
  | c :: cs =>
    match applyOne params df c with
    | none => none
    | some df1 => applyFilters cs params df1

/-- `filter_dataframe(df)` (lines 84-145): if the checkbox is off, the
frame is returned untouched; otherwise the frame is copied, preprocessed
column by column, and then narrowed by the filter loop over the selected
columns. -/
def filterDataframe (parse : String → Option (Int × Option Int))
    (modify : Bool) (toFilterColumns : List String)
    (params : String → FilterParam) (df : DataFrame) : Option DataFrame :=
  if !modify then some df
  else applyFilters toFilterColumns params (preprocess parse df)

/-! ### Spec-side text predicate (for comparison only) -/

/-- Does `pat` occur at the head of `s`? -/
def startsWith : List Char → List Char → Bool
  | [], _ => true
  | _ :: _, [] => false
  | a :: as, b :: bs => a == b && startsWith as bs

/-- Literal (non-regex) substring containment. -/
def containsLit (pat : List Char) : List Char → Bool
  | [] => pat.isEmpty
  | c :: rest => startsWith pat (c :: rest) || containsLit pat rest

/-- Modelled from the spec, not from the source: the spec's Text
predicate, "the string form of the value contains the pattern as a
substring, OR the pattern matches as a regular expression somewhere in
the string form".  Used only to compare the spec's predicate with the
source's regex-only `str.contains`. -/
def specTextPass (pat s : String) : Bool :=
  containsLit pat.data s.data ||
    ((Regex.compile pat).map (fun r => r.searchB s)).getD false

/-! ### Auxiliary predicates used by the statements -/

/-- Is the cell a machine number? -/
def Value.isNum : Value → Bool
  | Value.num _ => true
  | _ => false

/-- The branch whose widget produces parameters of this shape. -/
def FilterParam.shape : FilterParam → Kind
  | FilterParam.catSel _ => Kind.categorical
  | FilterParam.range _ _ => Kind.numeric
  | FilterParam.dates _ => Kind.temporal
  | FilterParam.text _ => Kind.text

/-- The parameter supplied for `c` has the shape of the widget that the
branch taken for `c` on `df` actually shows (the UI can only ever supply
the matching shape, because it builds the widget from the same branch). -/
def shapeOK (df : DataFrame) (params : String → FilterParam) (c : String) : Bool :=
  match df.header.findIdx? (fun h => h.name == c) with
  | none => false
  | some i => (params c).shape == kindOf df i

/-- Along the whole pass, each selected column's parameter matches the
branch taken on the frame it is applied to. -/
def ParamsMatch (params : String → FilterParam) :
    List String → DataFrame → Prop
  | [], _ => True
  | c :: cs, df => shapeOK df params c = true ∧
      ∀ dfn, applyOne params df c = some dfn → ParamsMatch params cs dfn

/-- Column `c` exists in `df` with categorical dtype, and its parameter
is a categorical value selection. -/
def CatSelected (df : DataFrame) (params : String → FilterParam)
    (c : String) : Prop :=
  (∃ i, df.header.findIdx? (fun h => h.name == c) = some i ∧
    dtypeOf df i = Dtype.categorical) ∧
  ∃ vs, params c = FilterParam.catSel vs

/-! ### Concrete fixtures for the claim witnesses and counterexamples -/

/-- A column of 9 distinct untagged strings. -/
def dfNine : DataFrame :=
  { header := [⟨"S", Dtype.object⟩],
    rows := [[Value.str "a"], [Value.str "b"], [Value.str "c"], [Value.str "d"],
             [Value.str "e"], [Value.str "f"], [Value.str "g"], [Value.str "h"],
             [Value.str "i1"]] }

/-- A column of 10 distinct untagged strings. -/
def dfTen : DataFrame :=
  { header := [⟨"S", Dtype.object⟩],
    rows := [[Value.str "a"], [Value.str "b"], [Value.str "c"], [Value.str "d"],
             [Value.str "e"], [Value.str "f"], [Value.str "g"], [Value.str "h"],
             [Value.str "i1"], [Value.str "j"]] }

/-- Order-dependence fixture: a tagged-categorical column `A` and a
numeric column `B` with exactly 10 distinct values; `A`'s filter drops
the row carrying `B`'s 10th distinct value. -/
def dfOrder : DataFrame :=
  { header := [⟨"A", Dtype.categorical⟩, ⟨"B", Dtype.numeric⟩],
    rows := [[Value.str "x", Value.num 0], [Value.str "x", Value.num 1],
             [Value.str "x", Value.num 2], [Value.str "x", Value.num 3],
             [Value.str "x", Value.num 4], [Value.str "x", Value.num 5],
             [Value.str "x", Value.num 6], [Value.str "x", Value.num 7],
             [Value.str "x", Value.num 8], [Value.str "y", Value.num 9]] }

/-- Parameters for `dfOrder`: keep `A = "x"`, keep `B` in `[0, 4]`. -/
def pOrder : String → FilterParam := fun c =>
  if c = "A" then FilterParam.catSel [Value.str "x"]
  else FilterParam.range 0 4

/-- Two tagged-categorical columns for the order-independence witness. -/
def dfPermW : DataFrame :=
  { header := [⟨"A", Dtype.categorical⟩, ⟨"B", Dtype.categorical⟩],
    rows := [[Value.str "x", Value.num 0], [Value.str "x", Value.num 1],
             [Value.str "y", Value.num 0], [Value.str "y", Value.num 1]] }

/-- Parameters for `dfPermW`: keep `A = "x"` and `B ∈ {0}`. -/
def pPermW : String → FilterParam := fun c =>
  if c = "A" then FilterParam.catSel [Value.str "x"]
  else FilterParam.catSel [Value.num 0]

/-- Idempotence witness fixture: a numeric column with 10 distinct
values. -/
def dfIdemW : DataFrame :=
  { header := [⟨"N", Dtype.numeric⟩],
    rows := [[Value.num 0], [Value.num 1], [Value.num 2], [Value.num 3],
             [Value.num 4], [Value.num 5], [Value.num 6], [Value.num 7],
             [Value.num 8], [Value.num 9]] }

/-- Parameters for `dfIdemW`: keep `N` in `[2, 7]`. -/
def pIdemW : String → FilterParam := fun _ => FilterParam.range 2 7

/-- `dfIdemW` after one application of `pIdemW`. -/
def dfIdemOut : DataFrame :=
  { header := [⟨"N", Dtype.numeric⟩],
    rows := [[Value.num 2], [Value.num 3], [Value.num 4], [Value.num 5],
             [Value.num 6], [Value.num 7]] }

/-- Numeric-range witness fixture: 10 distinct numbers, min 0, max 9. -/
def dfNumW : DataFrame :=
  { header := [⟨"N", Dtype.numeric⟩],
    rows := [[Value.num 3], [Value.num 0], [Value.num 1], [Value.num 9],
             [Value.num 4], [Value.num 5], [Value.num 6], [Value.num 7],
             [Value.num 8], [Value.num 2]] }

/-- Parameters for `dfNumW`: the observed min and max. -/
def pNumW : String → FilterParam := fun _ => FilterParam.range 0 9

/-- Temporal witness fixture: 10 distinct instants. -/
def dfTimeW : DataFrame :=
  { header := [⟨"D", Dtype.datetime⟩],
    rows := [[Value.time 0 none], [Value.time 1 none], [Value.time 2 none],
             [Value.time 3 none], [Value.time 4 none], [Value.time 5 none],
             [Value.time 6 none], [Value.time 7 none], [Value.time 8 none],
             [Value.time 9 none]] }

/-- A single-endpoint date parameter for `dfTimeW`. -/
def pTimeW : String → FilterParam := fun _ => FilterParam.dates [5]

/-- Text fixture: an object column with 10 distinct strings, one of them
the literal string `1+1`. -/
def dfPat : DataFrame :=
  { header := [⟨"T", Dtype.object⟩],
    rows := [[Value.str "1+1"], [Value.str "a"], [Value.str "b"], [Value.str "c"],
             [Value.str "d"], [Value.str "e"], [Value.str "f"], [Value.str "g"],
             [Value.str "h"], [Value.str "k"]] }

/-- The pattern `1+1`: literally a substring of the cell `1+1`, but as a
regular expression it only matches `11`. -/
def pPat : String → FilterParam := fun _ => FilterParam.text "1+1"

/-- Text witness fixture: an object column with 10 distinct strings. -/
def dfTextW : DataFrame :=
  { header := [⟨"S", Dtype.object⟩],
    rows := [[Value.str "ab"], [Value.str "bb"], [Value.str "c"], [Value.str "d"],
             [Value.str "e"], [Value.str "f"], [Value.str "g"], [Value.str "h"],
             [Value.str "i1"], [Value.str "j"]] }

/-- Parameters for `dfTextW`: the pattern `b+`. -/
def pTextW : String → FilterParam := fun _ => FilterParam.text "b+"

/-- A date parser that rejects every string. -/
def parseNone : String → Option (Int × Option Int) := fun _ => none

/-- An object column one of whose values fails to parse as a date. -/
def dfParseFail : DataFrame :=
  { header := [⟨"O", Dtype.object⟩],
    rows := [[Value.str "2020-01-01"], [Value.str "junk"]] }

/-- A date parser that accepts exactly two date strings, one of them
carrying a timezone offset. -/
def parseTwo : String → Option (Int × Option Int) := fun s =>
  if s = "2020-01-01" then some (100, none)
  else if s = "2020-06-01T00:00+02:00" then some (252, some 120)
  else none

/-- An unselected object column whose values all parse as dates. -/
def dfConv : DataFrame :=
  { header := [⟨"O", Dtype.object⟩],
    rows := [[Value.str "2020-01-01"], [Value.str "2020-06-01T00:00+02:00"]] }

/-- The frame `dfConv` after the preprocessing pass: converted to
datetime, timezone offsets discarded. -/
def dfConvOut : DataFrame :=
  { header := [⟨"O", Dtype.datetime⟩],
    rows := [[Value.time 100 none], [Value.time 252 none]] }

/-- Invalid-pattern fixture: an object column with 10 distinct strings,
one of which contains `(` literally. -/
def dfBadPat : DataFrame :=
  { header := [⟨"U", Dtype.object⟩],
    rows := [[Value.str "(a"], [Value.str "p"], [Value.str "q"], [Value.str "r"],
             [Value.str "s"], [Value.str "t"], [Value.str "u"], [Value.str "v"],
             [Value.str "w"], [Value.str "z"]] }

/-- The pattern `(`: not a valid regular expression. -/
def pBadPat : String → FilterParam := fun _ => FilterParam.text "("

/-! ### Structural lemmas about the filter loop -/

/-- One loop iteration never touches the header. -/
theorem applyOne_header {params : String → FilterParam} {df df1 : DataFrame}
    {c : String} (h : applyOne params df c = some df1) :
    df1.header = df.header := by
  unfold applyOne at h
  repeat' split at h
  all_goals first
    | exact Option.noConfusion h
    | (injection h with h2; subst h2; rfl)

/-- One loop iteration only ever discards rows, preserving order. -/
theorem applyOne_rows {params : String → FilterParam} {df df1 : DataFrame}
    {c : String} (h : applyOne params df c = some df1) :
    df1.rows.Sublist df.rows := by
  unfold applyOne at h
  repeat' split at h
  all_goals first
    | exact Option.noConfusion h
    | (injection h with h2; subst h2; exact List.Sublist.refl _)
    | (injection h with h2; subst h2; exact List.filter_sublist _)

/-- The whole loop never touches the header. -/
theorem applyFilters_header {cols : List String} {params : String → FilterParam}
    {df df' : DataFrame} (h : applyFilters cols params df = some df') :
    df'.header = df.header := by
  induction cols generalizing df with
  | nil => injection h with h2; rw [← h2]
  | cons c cs ih =>
    unfold applyFilters at h
    cases hc : applyOne params df c with
    | none => rw [hc] at h; exact Option.noConfusion h
    | some df1 => rw [hc] at h; exact (ih h).trans (applyOne_header hc)

/-- The whole loop only ever discards rows, preserving order. -/
theorem applyFilters_rows {cols : List String} {params : String → FilterParam}
    {df df' : DataFrame} (h : applyFilters cols params df = some df') :
    df'.rows.Sublist df.rows := by
  induction cols generalizing df with
  | nil => injection h with h2; rw [← h2]
  | cons c cs ih =>
    unfold applyFilters at h
    cases hc : applyOne params df c with
    | none => rw [hc] at h; exact Option.noConfusion h
    | some df1 => rw [hc] at h; exact (ih h).trans (applyOne_rows hc)

/-- Fewer values can only mean fewer distinct values. -/
theorem dedup_length_le {α : Type} [DecidableEq α] {l l' : List α}
    (h : l ⊆ l') : l.dedup.length ≤ l'.dedup.length := by
  have h1 : l.dedup ⊆ l'.dedup := fun x hx =>
    List.mem_dedup.mpr (h (List.mem_dedup.mp hx))
  exact ((List.nodup_dedup l).subperm h1).length_le

/-- Dropping rows can only lower a column's distinct-value count. -/
theorem nunique_mono {df df2 : DataFrame} (hr : df2.rows.Sublist df.rows)
    (i : Nat) : nunique df2 i ≤ nunique df i := by
  unfold nunique colValues
  exact dedup_length_le
    (((hr.map (fun r => cell r i)).filter (fun v => v ≠ Value.null)).subset)

/-- Keeping every row is the identity on the frame. -/
theorem filterRows_eq_self {df : DataFrame} {p : List Value → Bool}
    (h : ∀ r ∈ df.rows, p r = true) : filterRows df p = df := by
  unfold filterRows
  have : df.rows.filter p = df.rows := List.filter_eq_self.mpr h
  rw [this]

/-! ### Minimum / maximum of a numeric column -/

/-- `foldl min` never exceeds its seed. -/
theorem foldl_min_le_self (l : List Int) (a : Int) : l.foldl min a ≤ a := by
  induction l generalizing a with
  | nil => exact le_refl a
  | cons x t ih => exact le_trans (ih (min a x)) (min_le_left a x)

/-- `foldl min` never exceeds a list element. -/
theorem foldl_min_le_mem {l : List Int} {b : Int} (hb : b ∈ l) (a : Int) :
    l.foldl min a ≤ b := by
  induction l generalizing a with
  | nil => cases hb
  | cons x t ih =>
    rcases List.mem_cons.mp hb with rfl | hb'
    · exact le_trans (foldl_min_le_self t (min a b)) (min_le_right a b)
    · exact ih hb' (min a x)

/-- `foldl max` is at least its seed. -/
theorem le_foldl_max_self (l : List Int) (a : Int) : a ≤ l.foldl max a := by
  induction l generalizing a with
  | nil => exact le_refl a
  | cons x t ih => exact le_trans (le_max_left a x) (ih (max a x))

/-- `foldl max` is at least any list element. -/
theorem le_foldl_max_mem {l : List Int} {b : Int} (hb : b ∈ l) (a : Int) :
    b ≤ l.foldl max a := by
  induction l generalizing a with
  | nil => cases hb
  | cons x t ih =>
    rcases List.mem_cons.mp hb with rfl | hb'
    · exact le_trans (le_max_right a b) (le_foldl_max_self t (max a b))
    · exact ih hb' (max a x)

/-- The observed column minimum bounds every numeric cell from below. -/
theorem colMin_le {df : DataFrame} {i : Nat} {lo n : Int}
    (h : colMin df i = some lo) (hn : n ∈ colNums df i) : lo ≤ n := by
  unfold colMin at h
  cases hl : colNums df i with
  | nil => rw [hl] at h; exact Option.noConfusion h
  | cons m t =>
    rw [hl] at h hn
    injection h with h2
    rcases List.mem_cons.mp hn with rfl | hn'
    · exact h2 ▸ foldl_min_le_self t n
    · exact h2 ▸ foldl_min_le_mem hn' m

/-- The observed column maximum bounds every numeric cell from above. -/
theorem le_colMax {df : DataFrame} {i : Nat} {hi n : Int}
    (h : colMax df i = some hi) (hn : n ∈ colNums df i) : n ≤ hi := by
  unfold colMax at h
  cases hl : colNums df i with
  | nil => rw [hl] at h; exact Option.noConfusion h
  | cons m t =>
    rw [hl] at h hn
    injection h with h2
    rcases List.mem_cons.mp hn with rfl | hn'
    · exact h2 ▸ le_foldl_max_self t n
    · exact h2 ▸ le_foldl_max_mem hn' m

/-- A numeric cell of a row of the frame shows up in `colNums`. -/
theorem mem_colNums {df : DataFrame} {i : Nat} {r : List Value} {n : Int}
    (hr : r ∈ df.rows) (hc : cell r i = Value.num n) : n ∈ colNums df i := by
  unfold colNums colValues
  refine List.mem_filterMap.mpr ⟨Value.num n, ?_, rfl⟩
  exact List.mem_map.mpr ⟨r, hr, hc⟩

/-! ### Claim C1 -/

/-- C1: the loop classifies a column Categorical exactly when the column
is pre-tagged categorical by the schema or its distinct-value count is
strictly below 10; in particular 9 distinct values classify Categorical,
and an untagged column with exactly 10 distinct values falls through to
the Numeric/Temporal/Text checks. -/
theorem kindOf_categorical_iff (df : DataFrame) (i : Nat) :
    (kindOf df i = Kind.categorical ↔
      dtypeOf df i = Dtype.categorical ∨ nunique df i < 10) ∧
    (nunique df i = 9 → kindOf df i = Kind.categorical) ∧
    (nunique df i = 10 → dtypeOf df i ≠ Dtype.categorical →
      kindOf df i ≠ Kind.categorical) := by
  have h : kindOf df i = Kind.categorical ↔
      (dtypeOf df i = Dtype.categorical ∨ nunique df i < 10) := by
    unfold kindOf
    split_ifs with h1 h2 h3 <;> simp_all
  refine ⟨h, fun h9 => h.mpr (Or.inr (by omega)), fun h10 hdt hc => ?_⟩
  rcases h.mp hc with h' | h'
  · exact hdt h'
  · omega

/-- Witness for C1: 9 distinct untagged strings classify Categorical,
10 do not. -/
theorem kindOf_categorical_iff_witness :
    kindOf dfNine 0 = Kind.categorical ∧ kindOf dfTen 0 ≠ Kind.categorical :=
  ⟨(kindOf_categorical_iff dfNine 0).2.1 (by decide),
   (kindOf_categorical_iff dfTen 0).2.2 (by decide) (by decide)⟩

/-! ### Claim C2 -/

/-- C2: the filter loop with an empty set of selected columns returns
the frame it was handed unchanged: same rows in the same order, same
columns, same values. -/
theorem applyFilters_empty_id (params : String → FilterParam)
    (df : DataFrame) : applyFilters [] params df = some df := rfl

/-! ### Claim C5 -/

/-- C5: on a column classified Numeric with range parameter `[lo, hi]`,
the loop keeps exactly the rows whose cell lies between `lo` and `hi`,
both endpoints inclusive; consequently, when the parameter is the
column's observed minimum and maximum and the column is all-numeric,
every original row is kept. -/
theorem numeric_range_filter (params : String → FilterParam)
    (df : DataFrame) (c : String) (i : Nat) (lo hi : Int)
    (hfind : df.header.findIdx? (fun h => h.name == c) = some i)
    (hkind : kindOf df i = Kind.numeric)
    (hp : params c = FilterParam.range lo hi) :
    applyOne params df c =
      some (filterRows df (fun r => numBetween lo hi (cell r i))) ∧
    (∀ n : Int,
      numBetween lo hi (Value.num n) = (decide (lo ≤ n) && decide (n ≤ hi))) ∧
    (colMin df i = some lo → colMax df i = some hi →
      (∀ r ∈ df.rows, (cell r i).isNum = true) →
      applyOne params df c = some df) := by
  have h1 : applyOne params df c =
      some (filterRows df (fun r => numBetween lo hi (cell r i))) := by
    unfold applyOne
    simp only [hfind, hkind, hp]
  refine ⟨h1, fun n => rfl, fun hmin hmax hnum => ?_⟩
  rw [h1]
  congr 1
  refine filterRows_eq_self (fun r hr => ?_)
  have hn := hnum r hr
  cases hc : cell r i with
  | num n =>
    have hmem := mem_colNums hr hc
    have := colMin_le hmin hmem
    have := le_colMax hmax hmem
    simp [numBetween, *]
  | str s => rw [hc] at hn; exact Bool.noConfusion hn
  | time t tz => rw [hc] at hn; exact Bool.noConfusion hn
  | null => rw [hc] at hn; exact Bool.noConfusion hn

/-- Witness for C5: parameter `[0, 9]` is the observed min/max of the
fixture column, and every row is kept. -/
theorem numeric_range_filter_witness : applyOne pNumW dfNumW "N" = some dfNumW :=
  (numeric_range_filter pNumW dfNumW "N" 0 0 9 (by decide) (by decide)
    rfl).2.2 (by decide) (by decide) (by decide)

/-! ### Claim C6 -/

/-- C6: on a column classified Temporal the filter only applies when
both endpoints are supplied (any other number of endpoints is a no-op);
when it applies, it keeps exactly the rows whose instant lies between
the endpoints, both inclusive, and a missing instant (NaT) never
passes. -/
theorem temporal_range_filter (params : String → FilterParam)
    (df : DataFrame) (c : String) (i : Nat) (ds : List Int)
    (hfind : df.header.findIdx? (fun h => h.name == c) = some i)
    (hkind : kindOf df i = Kind.temporal)
    (hp : params c = FilterParam.dates ds) :
    (ds.length ≠ 2 → applyOne params df c = some df) ∧
    (∀ lo hi : Int, ds = [lo, hi] →
      applyOne params df c =
        some (filterRows df (fun r => timeBetween lo hi (cell r i)))) ∧
    (∀ lo hi t : Int, ∀ tz : Option Int,
      timeBetween lo hi (Value.time t tz) =
        (decide (lo ≤ t) && decide (t ≤ hi))) ∧
    (∀ lo hi : Int, timeBetween lo hi Value.null = false) := by
  refine ⟨fun hlen => ?_, fun lo hi hds => ?_, fun _ _ _ _ => rfl,
    fun _ _ => rfl⟩
  · unfold applyOne
    simp only [hfind, hkind, hp]
    match ds, hlen with
    | [], _ => rfl
    | [d], _ => rfl
    | d1 :: d2 :: d3 :: t, _ => rfl
    | [d1, d2], hlen => exact absurd rfl hlen
  · unfold applyOne
    simp only [hfind, hkind, hp, hds]

/-- Witness for C6: a single-endpoint date parameter leaves the fixture
frame unchanged. -/
theorem temporal_range_filter_witness : applyOne pTimeW dfTimeW "D" = some dfTimeW :=
  (temporal_range_filter pTimeW dfTimeW "D" 0 [5] (by decide) (by decide)
    rfl).1 (by decide)

/-! ### Claim C7 -/

/-- C7 fails as stated: the pattern `1+1` occurs literally as a
substring of the cell `1+1` (so the spec's substring-or-regex predicate
passes that row), yet the loop's regex-only `str.contains` drops every
row of the fixture, including that one. -/
theorem text_substring_counterexample :
    applyFilters ["T"] pPat dfPat = some { dfPat with rows := [] } ∧
    specTextPass "1+1" "1+1" = true := by decide

/-- C7 as amended: with a non-empty pattern the loop keeps exactly the
rows whose string form the pattern matches as a regular expression
somewhere (a literal substring occurrence that the pattern does not
match as a regex does not count); an empty pattern is a no-op. -/
theorem text_regex_filter (params : String → FilterParam) (df : DataFrame)
    (c : String) (i : Nat) (pat : String)
    (hfind : df.header.findIdx? (fun h => h.name == c) = some i)
    (hkind : kindOf df i = Kind.text)
    (hp : params c = FilterParam.text pat) :
    (pat = "" → applyOne params df c = some df) ∧
    (∀ r : Regex, pat ≠ "" → Regex.compile pat = some r →
      applyOne params df c =
        some (filterRows df (fun row => r.searchB (strForm (cell row i))))) := by
  constructor
  · intro hpat
    unfold applyOne
    simp [hfind, hkind, hp, hpat]
  · intro r hpat hcomp
    unfold applyOne
    simp only [hfind, hkind, hp, hcomp, if_neg hpat]

/-- Witness for C7's amended statement: the pattern `b+` compiles and
the loop keeps exactly the regex-matching rows of the fixture. -/
theorem text_regex_filter_witness :
    applyOne pTextW dfTextW "S" =
      some (filterRows dfTextW (fun row =>
        Regex.searchB
          (Regex.cat (Regex.cat (Regex.char 'b') (Regex.star (Regex.char 'b')))
            Regex.epsilon)
          (strForm (cell row 0)))) :=
  (text_regex_filter pTextW dfTextW "S" 0 "b+" (by decide) (by decide)
    rfl).2
    (Regex.cat (Regex.cat (Regex.char 'b') (Regex.star (Regex.char 'b')))
      Regex.epsilon)
    (by decide) (by decide)

/-! ### Claim C8 -/

/-- If one cell refuses to convert, the whole-column conversion raises. -/
theorem toDatetimeCol_none {parse : String → Option (Int × Option Int)}
    {vals : List Value} {v : Value} (hv : v ∈ vals)
    (hf : parseCell parse v = none) : toDatetimeCol parse vals = none := by
  induction vals with
  | nil => cases hv
  | cons x t ih =>
    rcases List.mem_cons.mp hv with rfl | hv'
    · simp [toDatetimeCol, hf]
    · cases hx : parseCell parse x with
      | none => simp [toDatetimeCol, hx]
      | some b => simp [toDatetimeCol, hx, ih hv']

/-- C8: reinterpreting a text column as temporal is all-or-nothing: if
any value fails to parse as a date/time, the attempt is abandoned and
the column keeps its original representation, with no partial conversion
(and no error: `preprocessCol` is total, the raise is swallowed by the
source's `except ... pass`). -/
theorem to_datetime_all_or_nothing (parse : String → Option (Int × Option Int))
    (df : DataFrame) (i : Nat)
    (hdt : dtypeOf df i = Dtype.object)
    (hfail : ∃ v ∈ colValues df i, parseCell parse v = none) :
    preprocessCol parse df i = df := by
  obtain ⟨v, hv, hf⟩ := hfail
  have hnone : toDatetimeCol parse (colValues df i) = none :=
    toDatetimeCol_none hv hf
  unfold preprocessCol convertCol tzCol
  simp [hdt, hnone]

/-- Witness for C8: a parser that rejects a cell leaves the fixture
column untouched. -/
theorem to_datetime_all_or_nothing_witness :
    preprocessCol parseNone dfParseFail 0 = dfParseFail :=
  to_datetime_all_or_nothing parseNone dfParseFail 0 (by decide)
    ⟨Value.str "junk", by decide, rfl⟩

/-! ### Claim C10 -/

/-- C10: the loop hands a non-empty Text pattern straight to the regex
engine: the pattern `(`, intended as a literal substring (it occurs
literally in the first cell of the fixture), does not compile as a
regular expression, and the filter pass raises instead of substring
matching. -/
theorem invalid_regex_raises :
    applyFilters ["U"] pBadPat dfBadPat = none ∧
    Regex.compile "(" = none ∧
    containsLit "(".data "(a".data = true := by decide

/-! ### Branch computation lemmas for the loop body -/

/-- Unfolding one successful loop step. -/
theorem applyFilters_cons {params : String → FilterParam} {df df1 : DataFrame}
    {c : String} (cs : List String) (h : applyOne params df c = some df1) :
    applyFilters (c :: cs) params df = applyFilters cs params df1 := by
  have huf : applyFilters (c :: cs) params df =
      match applyOne params df c with
      | none => none
      | some d => applyFilters cs params d := rfl
  rw [huf, h]

/-- The categorical branch is taken iff the column is tagged categorical
or has fewer than 10 distinct values. -/
theorem kindOf_cat {df : DataFrame} {i : Nat} :
    kindOf df i = Kind.categorical ↔
      (dtypeOf df i = Dtype.categorical ∨ nunique df i < 10) := by
  unfold kindOf
  split_ifs with h1 h2 h3 <;> simp_all

/-- The numeric branch is taken iff the categorical test fails and the
dtype is numeric. -/
theorem kindOf_num {df : DataFrame} {i : Nat} :
    kindOf df i = Kind.numeric ↔
      (¬(dtypeOf df i = Dtype.categorical ∨ nunique df i < 10) ∧
        dtypeOf df i = Dtype.numeric) := by
  unfold kindOf
  split_ifs with h1 h2 h3 <;> simp_all

/-- The temporal branch is taken iff the earlier tests fail and the
dtype is datetime. -/
theorem kindOf_time {df : DataFrame} {i : Nat} :
    kindOf df i = Kind.temporal ↔
      (¬(dtypeOf df i = Dtype.categorical ∨ nunique df i < 10) ∧
        dtypeOf df i = Dtype.datetime) := by
  unfold kindOf
  split_ifs with h1 h2 h3 <;> simp_all

/-- The text branch is the fallback. -/
theorem kindOf_text {df : DataFrame} {i : Nat} :
    kindOf df i = Kind.text ↔
      (¬(dtypeOf df i = Dtype.categorical ∨ nunique df i < 10) ∧
        dtypeOf df i ≠ Dtype.numeric ∧ dtypeOf df i ≠ Dtype.datetime) := by
  unfold kindOf
  split_ifs with h1 h2 h3 <;> simp_all

/-- Discarding rows can only move a column's branch towards the
categorical one. -/
theorem kindOf_stable {df df2 : DataFrame} {i : Nat}
    (hd : dtypeOf df2 i = dtypeOf df i) (hn : nunique df2 i ≤ nunique df i) :
    kindOf df2 i = kindOf df i ∨ kindOf df2 i = Kind.categorical := by
  by_cases hg : dtypeOf df2 i = Dtype.categorical ∨ nunique df2 i < 10
  · right
    unfold kindOf
    rw [if_pos hg]
  · left
    push_neg at hg
    obtain ⟨hdc, hnc⟩ := hg
    have hgdf : ¬(dtypeOf df i = Dtype.categorical ∨ nunique df i < 10) := by
      push_neg
      exact ⟨hd ▸ hdc, by omega⟩
    unfold kindOf
    rw [if_neg (by push_neg; exact ⟨hdc, hnc⟩), if_neg hgdf, hd]

/-- Computing the categorical branch. -/
theorem applyOne_cat_eq {params : String → FilterParam} {df : DataFrame}
    {c : String} {i : Nat} {vs : List Value}
    (hfind : df.header.findIdx? (fun h => h.name == c) = some i)
    (hk : kindOf df i = Kind.categorical)
    (hp : params c = FilterParam.catSel vs) :
    applyOne params df c =
      some (filterRows df (fun r => decide (cell r i ∈ vs))) := by
  unfold applyOne
  simp only [hfind, hk, hp]

/-- Computing the numeric branch. -/
theorem applyOne_num_eq {params : String → FilterParam} {df : DataFrame}
    {c : String} {i : Nat} {lo hi : Int}
    (hfind : df.header.findIdx? (fun h => h.name == c) = some i)
    (hk : kindOf df i = Kind.numeric)
    (hp : params c = FilterParam.range lo hi) :
    applyOne params df c =
      some (filterRows df (fun r => numBetween lo hi (cell r i))) := by
  unfold applyOne
  simp only [hfind, hk, hp]

/-- Computing the temporal branch with both endpoints. -/
theorem applyOne_time2_eq {params : String → FilterParam} {df : DataFrame}
    {c : String} {i : Nat} {lo hi : Int}
    (hfind : df.header.findIdx? (fun h => h.name == c) = some i)
    (hk : kindOf df i = Kind.temporal)
    (hp : params c = FilterParam.dates [lo, hi]) :
    applyOne params df c =
      some (filterRows df (fun r => timeBetween lo hi (cell r i))) := by
  unfold applyOne
  simp only [hfind, hk, hp]

/-- The temporal branch without exactly two endpoints is a no-op. -/
theorem applyOne_timeOther_eq {params : String → FilterParam} {df : DataFrame}
    {c : String} {i : Nat} {ds : List Int}
    (hfind : df.header.findIdx? (fun h => h.name == c) = some i)
    (hk : kindOf df i = Kind.temporal)
    (hp : params c = FilterParam.dates ds) (hlen : ds.length ≠ 2) :
    applyOne params df c = some df := by
  unfold applyOne
  simp only [hfind, hk, hp]
  match ds, hlen with
  | [], _ => rfl
  | [d], _ => rfl
  | d1 :: d2 :: d3 :: t, _ => rfl
  | [d1, d2], hlen => exact absurd rfl hlen

/-- The text branch with an empty pattern is a no-op. -/
theorem applyOne_textEmpty_eq {params : String → FilterParam} {df : DataFrame}
    {c : String} {i : Nat}
    (hfind : df.header.findIdx? (fun h => h.name == c) = some i)
    (hk : kindOf df i = Kind.text)
    (hp : params c = FilterParam.text "") :
    applyOne params df c = some df := by
  unfold applyOne
  simp [hfind, hk, hp]

/-- Computing the text branch with a compiling non-empty pattern. -/
theorem applyOne_text_eq {params : String → FilterParam} {df : DataFrame}
    {c : String} {i : Nat} {pat : String} {r : Regex}
    (hfind : df.header.findIdx? (fun h => h.name == c) = some i)
    (hk : kindOf df i = Kind.text)
    (hp : params c = FilterParam.text pat) (hne : pat ≠ "")
    (hcomp : Regex.compile pat = some r) :
    applyOne params df c =
      some (filterRows df (fun row => r.searchB (strForm (cell row i)))) := by
  unfold applyOne
  simp only [hfind, hk, hp, hcomp, if_neg hne]

/-- On the categorical branch, a parameter of any other shape is the
widget's default, a no-op. -/
theorem applyOne_cat_mismatch {params : String → FilterParam} {df : DataFrame}
    {c : String} {i : Nat}
    (hfind : df.header.findIdx? (fun h => h.name == c) = some i)
    (hk : kindOf df i = Kind.categorical)
    (hp : ∀ vs, params c ≠ FilterParam.catSel vs) :
    applyOne params df c = some df := by
  unfold applyOne
  simp only [hfind, hk]

/-- A row surviving a row filter satisfies its predicate. -/
theorem mem_filterRows {df : DataFrame} {p : List Value → Bool} {r : List Value}
    (h : r ∈ (filterRows df p).rows) : p r = true := by
  unfold filterRows at h
  exact List.of_mem_filter h

/-- Two row filters commute. -/
theorem filterRows_comm (df : DataFrame) (p q : List Value → Bool) :
    filterRows (filterRows df p) q = filterRows (filterRows df q) p := by
  unfold filterRows
  congr 1
  rw [List.filter_filter, List.filter_filter]
  exact List.filter_congr (fun a _ => by rw [Bool.and_comm])

/-- `CatSelected` only looks at the header and the parameters. -/
theorem catSelected_of_header {df df2 : DataFrame}
    {params : String → FilterParam} {c : String}
    (h : CatSelected df params c) (hh : df2.header = df.header) :
    CatSelected df2 params c := by
  obtain ⟨⟨i, hfind, hdt⟩, vs, hp⟩ := h
  refine ⟨⟨i, ?_, ?_⟩, vs, hp⟩
  · rw [hh]
    exact hfind
  · unfold dtypeOf
    rw [hh]
    exact hdt

/-- A tagged-categorical column with a value-set parameter always takes
the categorical branch, whatever the data. -/
theorem applyOne_of_catSelected {df : DataFrame}
    {params : String → FilterParam} {c : String}
    (h : CatSelected df params c) :
    ∃ (i : Nat) (vs : List Value),
      df.header.findIdx? (fun h => h.name == c) = some i ∧
      applyOne params df c =
        some (filterRows df (fun r => decide (cell r i ∈ vs))) := by
  obtain ⟨⟨i, hfind, hdt⟩, vs, hp⟩ := h
  refine ⟨i, vs, hfind, applyOne_cat_eq hfind ?_ hp⟩
  exact kindOf_cat.mpr (Or.inl hdt)

/-! ### Claim C3 -/

/-- C3 fails as stated: on `dfOrder`, filtering `B` (numeric, 10
distinct values, range `[0, 4]`) before the tagged-categorical `A` keeps
5 rows, while filtering `A` first drops the row carrying `B`'s 10th
distinct value, so `B` reclassifies as Categorical and its range filter
no longer applies, keeping 9 rows. -/
theorem filter_order_counterexample :
    applyFilters ["B", "A"] pOrder dfOrder ≠
      applyFilters ["A", "B"] pOrder dfOrder := by decide

/-- C3 as amended: the order of predicate application cannot change the
result when every selected column is pre-tagged categorical with a
value-set parameter (so no predicate can flip another column's branch);
in general, a predicate can lower a later column's distinct-value count
below 10 and flip its classification, making the result
order-dependent. -/
theorem applyFilters_perm_of_catSelected {l1 l2 : List String}
    (params : String → FilterParam) (hperm : l1.Perm l2) (df : DataFrame)
    (hsel : ∀ c ∈ l1, CatSelected df params c) :
    applyFilters l1 params df = applyFilters l2 params df := by
  induction hperm generalizing df with
  | nil => rfl
  | cons x h ih =>
    obtain ⟨i, vs, hfind, happ⟩ := applyOne_of_catSelected
      (hsel x (List.mem_cons_self x _))
    rw [applyFilters_cons _ happ, applyFilters_cons _ happ]
    exact ih _ (fun c hc =>
      catSelected_of_header (hsel c (List.mem_cons_of_mem _ hc)) rfl)
  | swap a b l =>
    obtain ⟨⟨i, hfa, hdta⟩, vs, hpa⟩ := hsel a (by simp)
    obtain ⟨⟨j, hfb, hdtb⟩, ws, hpb⟩ := hsel b (by simp)
    have happa : applyOne params df a =
        some (filterRows df (fun r => decide (cell r i ∈ vs))) :=
      applyOne_cat_eq hfa (kindOf_cat.mpr (Or.inl hdta)) hpa
    have happb : applyOne params df b =
        some (filterRows df (fun r => decide (cell r j ∈ ws))) :=
      applyOne_cat_eq hfb (kindOf_cat.mpr (Or.inl hdtb)) hpb
    have happa2 : applyOne params
        (filterRows df (fun r => decide (cell r j ∈ ws))) a =
        some (filterRows (filterRows df (fun r => decide (cell r j ∈ ws)))
          (fun r => decide (cell r i ∈ vs))) :=
      applyOne_cat_eq hfa (kindOf_cat.mpr (Or.inl hdta)) hpa
    have happb2 : applyOne params
        (filterRows df (fun r => decide (cell r i ∈ vs))) b =
        some (filterRows (filterRows df (fun r => decide (cell r i ∈ vs)))
          (fun r => decide (cell r j ∈ ws))) :=
      applyOne_cat_eq hfb (kindOf_cat.mpr (Or.inl hdtb)) hpb
    rw [applyFilters_cons _ happb, applyFilters_cons _ happa2,
      applyFilters_cons _ happa, applyFilters_cons _ happb2,
      filterRows_comm df (fun r => decide (cell r j ∈ ws))
        (fun r => decide (cell r i ∈ vs))]
  | trans h1 h2 ih1 ih2 =>
    exact (ih1 df hsel).trans (ih2 df (fun c hc => hsel c (h1.mem_iff.mpr hc)))

/-- Witness for C3's amended statement: two tagged-categorical columns
filtered in either order give the same frame. -/
theorem applyFilters_perm_of_catSelected_witness :
    applyFilters ["A", "B"] pPermW dfPermW =
      applyFilters ["B", "A"] pPermW dfPermW :=
  applyFilters_perm_of_catSelected pPermW (by decide) dfPermW (fun c hc => by
    rcases List.mem_cons.mp hc with rfl | hc2
    · exact ⟨⟨0, rfl, rfl⟩, [Value.str "x"], rfl⟩
    · rcases List.mem_cons.mp hc2 with rfl | hc3
      · exact ⟨⟨1, rfl, rfl⟩, [Value.num 0], rfl⟩
      · exact absurd hc3 (List.not_mem_nil c))

/-! ### Claim C4 -/

/-- If a shape-matched filter step has already been applied, re-applying
it to any frame with the same header and a subset of the surviving rows
is a no-op: the rows all pass again, or the column has flipped to the
categorical branch where the off-shape parameter is the widget's
default. -/
theorem applyOne_noop {params : String → FilterParam} {df df1 df2 : DataFrame}
    {c : String}
    (hshape : shapeOK df params c = true)
    (h1 : applyOne params df c = some df1)
    (hh : df2.header = df.header)
    (hr2 : df2.rows.Sublist df1.rows) :
    applyOne params df2 c = some df2 := by
  unfold shapeOK at hshape
  cases hf : df.header.findIdx? (fun h => h.name == c) with
  | none => rw [hf] at hshape; exact Bool.noConfusion hshape
  | some i =>
  rw [hf] at hshape
  have hsh : (params c).shape = kindOf df i := beq_iff_eq.mp hshape
  have hfind2 : df2.header.findIdx? (fun h => h.name == c) = some i := by
    rw [hh]; exact hf
  have hd2 : dtypeOf df2 i = dtypeOf df i := by
    unfold dtypeOf; rw [hh]
  have hr1 : df1.rows.Sublist df.rows := applyOne_rows h1
  have hrr : df2.rows.Sublist df.rows := hr2.trans hr1
  have hn2 : nunique df2 i ≤ nunique df i := nunique_mono hrr i
  cases hk : kindOf df i with
  | categorical =>
    rw [hk] at hsh
    cases hpc : params c with
    | range lo hi => rw [hpc] at hsh; exact absurd hsh (by simp [FilterParam.shape])
    | dates ds => rw [hpc] at hsh; exact absurd hsh (by simp [FilterParam.shape])
    | text pat => rw [hpc] at hsh; exact absurd hsh (by simp [FilterParam.shape])
    | catSel vs =>
      have hguard2 : dtypeOf df2 i = Dtype.categorical ∨ nunique df2 i < 10 := by
        rcases kindOf_cat.mp hk with h | h
        · exact Or.inl (hd2.trans h)
        · exact Or.inr (lt_of_le_of_lt hn2 h)
      have hk2 : kindOf df2 i = Kind.categorical := kindOf_cat.mpr hguard2
      have he1 := applyOne_cat_eq hf hk hpc
      rw [h1] at he1
      have hdf1 := Option.some.inj he1
      rw [applyOne_cat_eq hfind2 hk2 hpc]
      congr 1
      refine filterRows_eq_self (fun r hr => ?_)
      have hrmem := hr2.subset hr
      rw [hdf1] at hrmem
      exact mem_filterRows hrmem
  | numeric =>
    rw [hk] at hsh
    cases hpc : params c with
    | catSel vs => rw [hpc] at hsh; exact absurd hsh (by simp [FilterParam.shape])
    | dates ds => rw [hpc] at hsh; exact absurd hsh (by simp [FilterParam.shape])
    | text pat => rw [hpc] at hsh; exact absurd hsh (by simp [FilterParam.shape])
    | range lo hi =>
      have hnum := kindOf_num.mp hk
      by_cases hg2 : dtypeOf df2 i = Dtype.categorical ∨ nunique df2 i < 10
      · exact applyOne_cat_mismatch hfind2 (kindOf_cat.mpr hg2)
          (fun vs h => by rw [hpc] at h; exact FilterParam.noConfusion h)
      · have hk2 : kindOf df2 i = Kind.numeric :=
          kindOf_num.mpr ⟨hg2, hd2.trans hnum.2⟩
        have he1 := applyOne_num_eq hf hk hpc
        rw [h1] at he1
        have hdf1 := Option.some.inj he1
        rw [applyOne_num_eq hfind2 hk2 hpc]
        congr 1
        refine filterRows_eq_self (fun r hr => ?_)
        have hrmem := hr2.subset hr
        rw [hdf1] at hrmem
        exact mem_filterRows hrmem
  | temporal =>
    rw [hk] at hsh
    cases hpc : params c with
    | catSel vs => rw [hpc] at hsh; exact absurd hsh (by simp [FilterParam.shape])
    | range lo hi => rw [hpc] at hsh; exact absurd hsh (by simp [FilterParam.shape])
    | text pat => rw [hpc] at hsh; exact absurd hsh (by simp [FilterParam.shape])
    | dates ds =>
      have htmp := kindOf_time.mp hk
      by_cases hlen : ds.length = 2
      · obtain ⟨lo, hi, rfl⟩ : ∃ lo hi, ds = [lo, hi] := by
          match ds, hlen with
          | [lo, hi], _ => exact ⟨lo, hi, rfl⟩
        by_cases hg2 : dtypeOf df2 i = Dtype.categorical ∨ nunique df2 i < 10
        · exact applyOne_cat_mismatch hfind2 (kindOf_cat.mpr hg2)
            (fun vs h => by rw [hpc] at h; exact FilterParam.noConfusion h)
        · have hk2 : kindOf df2 i = Kind.temporal :=
            kindOf_time.mpr ⟨hg2, hd2.trans htmp.2⟩
          have he1 := applyOne_time2_eq hf hk hpc
          rw [h1] at he1
          have hdf1 := Option.some.inj he1
          rw [applyOne_time2_eq hfind2 hk2 hpc]
          congr 1
          refine filterRows_eq_self (fun r hr => ?_)
          have hrmem := hr2.subset hr
          rw [hdf1] at hrmem
          exact mem_filterRows hrmem
      · by_cases hg2 : dtypeOf df2 i = Dtype.categorical ∨ nunique df2 i < 10
        · exact applyOne_cat_mismatch hfind2 (kindOf_cat.mpr hg2)
            (fun vs h => by rw [hpc] at h; exact FilterParam.noConfusion h)
        · have hk2 : kindOf df2 i = Kind.temporal :=
            kindOf_time.mpr ⟨hg2, hd2.trans htmp.2⟩
          exact applyOne_timeOther_eq hfind2 hk2 hpc hlen
  | text =>
    rw [hk] at hsh
    cases hpc : params c with
    | catSel vs => rw [hpc] at hsh; exact absurd hsh (by simp [FilterParam.shape])
    | range lo hi => rw [hpc] at hsh; exact absurd hsh (by simp [FilterParam.shape])
    | dates ds => rw [hpc] at hsh; exact absurd hsh (by simp [FilterParam.shape])
    | text pat =>
      have htxt := kindOf_text.mp hk
      have hdn2 : dtypeOf df2 i ≠ Dtype.numeric := by
        rw [hd2]; exact htxt.2.1
      have hdd2 : dtypeOf df2 i ≠ Dtype.datetime := by
        rw [hd2]; exact htxt.2.2
      by_cases hpat : pat = ""
      · subst hpat
        by_cases hg2 : dtypeOf df2 i = Dtype.categorical ∨ nunique df2 i < 10
        · exact applyOne_cat_mismatch hfind2 (kindOf_cat.mpr hg2)
            (fun vs h => by rw [hpc] at h; exact FilterParam.noConfusion h)
        · exact applyOne_textEmpty_eq hfind2
            (kindOf_text.mpr ⟨hg2, hdn2, hdd2⟩) hpc
      · obtain ⟨r, hcomp⟩ : ∃ r, Regex.compile pat = some r := by
          cases hcomp : Regex.compile pat with
          | some r => exact ⟨r, rfl⟩
          | none =>
            have hnone : applyOne params df c = none := by
              unfold applyOne
              simp only [hf, hk, hpc, hcomp, if_neg hpat]
            rw [hnone] at h1
            exact Option.noConfusion h1
        by_cases hg2 : dtypeOf df2 i = Dtype.categorical ∨ nunique df2 i < 10
        · exact applyOne_cat_mismatch hfind2 (kindOf_cat.mpr hg2)
            (fun vs h => by rw [hpc] at h; exact FilterParam.noConfusion h)
        · have hk2 : kindOf df2 i = Kind.text :=
            kindOf_text.mpr ⟨hg2, hdn2, hdd2⟩
          have he1 := applyOne_text_eq hf hk hpc hpat hcomp
          rw [h1] at he1
          have hdf1 := Option.some.inj he1
          rw [applyOne_text_eq hfind2 hk2 hpc hpat hcomp]
          congr 1
          refine filterRows_eq_self (fun r2 hr => ?_)
          have hrmem := hr2.subset hr
          rw [hdf1] at hrmem
          exact mem_filterRows hrmem

/-- C4: re-running the whole filter loop with the same parameter mapping
on its own output changes nothing, provided each selected column's
parameter has the shape of the branch taken when it was applied (which
the UI guarantees, since it builds each widget from that same branch). -/
theorem applyFilters_idem (l : List String) (params : String → FilterParam)
    (df df' : DataFrame) (hm : ParamsMatch params l df)
    (h : applyFilters l params df = some df') :
    applyFilters l params df' = some df' := by
  induction l generalizing df with
  | nil => injection h with h2; subst h2; rfl
  | cons c cs ih =>
    unfold applyFilters at h
    cases hc : applyOne params df c with
    | none => rw [hc] at h; exact Option.noConfusion h
    | some df1 =>
      rw [hc] at h
      obtain ⟨hshape, hnext⟩ := hm
      have hh : df'.header = df.header :=
        (applyFilters_header h).trans (applyOne_header hc)
      have hstep : applyOne params df' c = some df' :=
        applyOne_noop hshape hc hh (applyFilters_rows h)
      rw [applyFilters_cons cs hstep]
      exact ih df1 (hnext df1 hc) h

/-- Witness for C4: a numeric range filter applied to its own output is
the identity. -/
theorem applyFilters_idem_witness :
    applyFilters ["N"] pIdemW dfIdemOut = some dfIdemOut :=
  applyFilters_idem ["N"] pIdemW dfIdemW dfIdemOut
    ⟨by decide, fun dfn _ => trivial⟩ (by decide)

/-! ### Claim C9: the preprocessing pass seen through the whole filter pass -/

/-- Writing another column leaves cell `i` alone. -/
theorem cell_set_ne {r : List Value} {j i : Nat} {v : Value} (h : i ≠ j) :
    cell (r.set j v) i = cell r i := by
  unfold cell
  rw [List.getD_eq_getElem?_getD, List.getD_eq_getElem?_getD,
    List.getElem?_set_ne (Ne.symm h)]

/-- Writing cell `i` stores the written value. -/
theorem cell_set_eq {r : List Value} {i : Nat} (h : i < r.length) (v : Value) :
    cell (r.set i v) i = v := by
  unfold cell
  rw [List.getD_eq_getElem?_getD, List.getElem?_set_self h]
  rfl

/-- Writing another header entry leaves entry `i` alone. -/
theorem getD_set_ne {l : List ColHeader} {j i : Nat} (h : j ≠ i)
    (x d : ColHeader) : (l.set j x).getD i d = l.getD i d := by
  rw [List.getD_eq_getElem?_getD, List.getD_eq_getElem?_getD,
    List.getElem?_set_ne h]

/-- A successful whole-column conversion keeps the column length. -/
theorem toDatetimeCol_length {parse : String → Option (Int × Option Int)}
    {vals vs : List Value} (h : toDatetimeCol parse vals = some vs) :
    vs.length = vals.length := by
  induction vals generalizing vs with
  | nil =>
    injection h with h2
    rw [← h2]
  | cons x t ih =>
    unfold toDatetimeCol at h
    cases hx : parseCell parse x with
    | none => rw [hx] at h; exact Option.noConfusion h
    | some w =>
      rw [hx] at h
      cases ht : toDatetimeCol parse t with
      | none => rw [ht] at h; exact Option.noConfusion h
      | some ws =>
        rw [ht] at h
        injection h with h2
        rw [← h2]
        simp [ih ht]

/-- Converted cells are instants or missing. -/
theorem toDatetimeCol_shape {parse : String → Option (Int × Option Int)}
    {vals vs : List Value} (h : toDatetimeCol parse vals = some vs) :
    ∀ w ∈ vs, w = Value.null ∨ ∃ t : Int, ∃ tz : Option Int,
      w = Value.time t tz := by
  induction vals generalizing vs with
  | nil =>
    injection h with h2
    rw [← h2]
    intro w hw
    cases hw
  | cons x t ih =>
    unfold toDatetimeCol at h
    cases hx : parseCell parse x with
    | none => rw [hx] at h; exact Option.noConfusion h
    | some w0 =>
      rw [hx] at h
      cases ht : toDatetimeCol parse t with
      | none => rw [ht] at h; exact Option.noConfusion h
      | some ws =>
        rw [ht] at h
        injection h with h2
        subst h2
        intro w hw
        rcases List.mem_cons.mp hw with rfl | hw'
        · cases x with
          | str s =>
            have hx2 : (parse s).map (fun p => Value.time p.1 p.2) = some w := hx
            cases hps : parse s with
            | none => rw [hps] at hx2; exact Option.noConfusion hx2
            | some p =>
              rw [hps, Option.map_some'] at hx2
              injection hx2 with hx3
              exact Or.inr ⟨p.1, p.2, hx3.symm⟩
          | num n =>
            injection hx with hx2
            exact Or.inr ⟨n, none, hx2.symm⟩
          | time t0 tz0 =>
            injection hx with hx2
            exact Or.inr ⟨t0, tz0, hx2.symm⟩
          | null =>
            injection hx with hx2
            exact Or.inl hx2.symm
        · exact ih ht w hw'

/-- Rows written by `setColValues` come from pairing rows with values. -/
theorem mem_setColValues {j : Nat} {vs : List Value}
    {rows : List (List Value)} {r2 : List Value}
    (h : r2 ∈ setColValues j vs rows) :
    ∃ r ∈ rows, ∃ v ∈ vs, r2 = r.set j v := by
  unfold setColValues at h
  obtain ⟨p, hp, hq⟩ := List.mem_map.mp h
  exact ⟨p.1, (List.of_mem_zip hp).1, p.2, (List.of_mem_zip hp).2, hq.symm⟩

/-- Reading a column other than the one written by `setColValues`. -/
theorem map_cell_setColValues_ne {i j : Nat} (hne : j ≠ i) (vs : List Value)
    (rows : List (List Value)) (hlen : vs.length = rows.length) :
    (setColValues j vs rows).map (fun r => cell r i) =
      rows.map (fun r => cell r i) := by
  unfold setColValues
  rw [List.map_map]
  have h1 : (rows.zip vs).map
      ((fun r => cell r i) ∘ fun p : List Value × Value => p.1.set j p.2) =
      (rows.zip vs).map (fun p => cell p.1 i) :=
    List.map_congr_left (fun p _ => cell_set_ne (Ne.symm hne))
  rw [h1]
  have h2 : (rows.zip vs).map (fun p => cell p.1 i) =
      ((rows.zip vs).map Prod.fst).map (fun r => cell r i) := by
    rw [List.map_map]
    rfl
  rw [h2, List.map_fst_zip rows vs (by omega)]

/-- Reading a column other than the one rewritten by the timezone pass. -/
theorem map_cell_tzmap_ne {i j : Nat} (hne : j ≠ i)
    (rows : List (List Value)) :
    (rows.map (fun r => r.set j (tzLocalizeNone (cell r j)))).map
        (fun r => cell r i) =
      rows.map (fun r => cell r i) := by
  rw [List.map_map]
  exact List.map_congr_left (fun r _ => cell_set_ne (Ne.symm hne))

/-- Reading the header entry just written. -/
theorem dtypeOf_set_self {l : List ColHeader} {i : Nat} (hi : i < l.length)
    (x : ColHeader) :
    ((l.set i x).getD i ⟨"", Dtype.object⟩).dtype = x.dtype := by
  rw [List.getD_eq_getElem?_getD, List.getElem?_set_self hi]
  rfl

/-- A successful conversion writes the converted column and retags it
datetime. -/
theorem convertCol_eq_some {parse : String → Option (Int × Option Int)}
    {df : DataFrame} {j : Nat} {vs : List Value}
    (hdt : dtypeOf df j = Dtype.object)
    (hconv : toDatetimeCol parse (colValues df j) = some vs) :
    convertCol parse df j =
      { header := df.header.set j
          ⟨(df.header.getD j ⟨"", Dtype.object⟩).name, Dtype.datetime⟩,
        rows := setColValues j vs df.rows } := by
  unfold convertCol
  rw [if_pos hdt, hconv]

/-- Converting column `j` leaves column `i` alone. -/
theorem convertCol_untouched {parse : String → Option (Int × Option Int)}
    {df : DataFrame} {j i : Nat} (hne : j ≠ i) :
    dtypeOf (convertCol parse df j) i = dtypeOf df i ∧
    colValues (convertCol parse df j) i = colValues df i := by
  unfold convertCol
  split_ifs with ho
  · cases hc : toDatetimeCol parse (colValues df j) with
    | none => exact ⟨rfl, rfl⟩
    | some vs =>
      constructor
      · unfold dtypeOf
        rw [getD_set_ne hne]
      · unfold colValues
        have hlen : vs.length = df.rows.length := by
          have h1 := toDatetimeCol_length hc
          unfold colValues at h1
          rw [List.length_map] at h1
          exact h1
        exact map_cell_setColValues_ne hne vs df.rows hlen
  · exact ⟨rfl, rfl⟩

/-- Conversion keeps the number of header entries. -/
theorem convertCol_header_length {parse : String → Option (Int × Option Int)}
    {df : DataFrame} {j : Nat} :
    (convertCol parse df j).header.length = df.header.length := by
  unfold convertCol
  split_ifs with ho
  · cases hc : toDatetimeCol parse (colValues df j) with
    | none => rfl
    | some vs => simp
  · rfl

/-- Conversion keeps frames well-formed. -/
theorem convertCol_WF {parse : String → Option (Int × Option Int)}
    {df : DataFrame} {j : Nat} (hWF : df.WF) : (convertCol parse df j).WF := by
  unfold convertCol
  split_ifs with ho
  · cases hc : toDatetimeCol parse (colValues df j) with
    | none => exact hWF
    | some vs =>
      intro r2 hr2
      obtain ⟨r, hr, v, hv, rfl⟩ := mem_setColValues hr2
      simp [hWF r hr]
  · exact hWF

/-- The timezone pass on column `j` leaves column `i` alone. -/
theorem tzCol_untouched {df : DataFrame} {j i : Nat} (hne : j ≠ i) :
    dtypeOf (tzCol df j) i = dtypeOf df i ∧
    colValues (tzCol df j) i = colValues df i := by
  unfold tzCol
  split_ifs with ho
  · exact ⟨rfl, map_cell_tzmap_ne hne df.rows⟩
  · exact ⟨rfl, rfl⟩

/-- The timezone pass keeps the header. -/
theorem tzCol_header {df : DataFrame} {j : Nat} :
    (tzCol df j).header = df.header := by
  unfold tzCol
  split_ifs with ho <;> rfl

/-- The timezone pass keeps frames well-formed. -/
theorem tzCol_WF {df : DataFrame} {j : Nat} (hWF : df.WF) : (tzCol df j).WF := by
  unfold tzCol
  split_ifs with ho
  · intro r2 hr2
    obtain ⟨r, hr, rfl⟩ := List.mem_map.mp hr2
    simp [hWF r hr]
  · exact hWF

/-- The loop body on column `j` leaves column `i` alone. -/
theorem preprocessCol_untouched {parse : String → Option (Int × Option Int)}
    {df : DataFrame} {j i : Nat} (hne : j ≠ i) :
    dtypeOf (preprocessCol parse df j) i = dtypeOf df i ∧
    colValues (preprocessCol parse df j) i = colValues df i := by
  unfold preprocessCol
  have h1 : dtypeOf (convertCol parse df j) i = dtypeOf df i ∧
      colValues (convertCol parse df j) i = colValues df i :=
    convertCol_untouched hne
  have h2 : dtypeOf (tzCol (convertCol parse df j) j) i =
        dtypeOf (convertCol parse df j) i ∧
      colValues (tzCol (convertCol parse df j) j) i =
        colValues (convertCol parse df j) i :=
    tzCol_untouched hne
  exact ⟨h2.1.trans h1.1, h2.2.trans h1.2⟩

/-- The loop body keeps the number of header entries. -/
theorem preprocessCol_header_length
    {parse : String → Option (Int × Option Int)} {df : DataFrame} {j : Nat} :
    (preprocessCol parse df j).header.length = df.header.length := by
  unfold preprocessCol
  rw [tzCol_header]
  exact convertCol_header_length

/-- The loop body keeps frames well-formed. -/
theorem preprocessCol_WF {parse : String → Option (Int × Option Int)}
    {df : DataFrame} {j : Nat} (hWF : df.WF) :
    (preprocessCol parse df j).WF := by
  unfold preprocessCol
  exact tzCol_WF (convertCol_WF hWF)

/-- The loop body converts an all-parsing object column to a
timezone-naive datetime column. -/
theorem preprocessCol_converts {parse : String → Option (Int × Option Int)}
    {df : DataFrame} {i : Nat} {vs : List Value}
    (hWF : df.WF) (hi : i < df.header.length)
    (hdt : dtypeOf df i = Dtype.object)
    (hconv : toDatetimeCol parse (colValues df i) = some vs) :
    dtypeOf (preprocessCol parse df i) i = Dtype.datetime ∧
    ∀ v ∈ colValues (preprocessCol parse df i) i,
      v = Value.null ∨ ∃ t : Int, v = Value.time t none := by
  have hce := convertCol_eq_some hdt hconv
  have hdc : dtypeOf (convertCol parse df i) i = Dtype.datetime := by
    rw [hce]
    unfold dtypeOf
    exact dtypeOf_set_self hi _
  have htz : tzCol (convertCol parse df i) i =
      { convertCol parse df i with
        rows := (convertCol parse df i).rows.map
          (fun r => r.set i (tzLocalizeNone (cell r i))) } := by
    unfold tzCol
    rw [if_pos hdc]
  constructor
  · show dtypeOf (tzCol (convertCol parse df i) i) i = Dtype.datetime
    rw [htz]
    exact hdc
  · show ∀ v ∈ colValues (tzCol (convertCol parse df i) i) i, _
    rw [htz]
    intro v hv
    unfold colValues at hv
    obtain ⟨r2, hr2, rfl⟩ := List.mem_map.mp hv
    obtain ⟨r3, hr3, rfl⟩ := List.mem_map.mp hr2
    have hr3' : r3 ∈ setColValues i vs df.rows := by
      rw [hce] at hr3
      exact hr3
    obtain ⟨r, hr, w, hw, rfl⟩ := mem_setColValues hr3'
    have hrl : i < r.length := by
      rw [hWF r hr]
      exact hi
    have hrl2 : i < (r.set i w).length := by
      rw [List.length_set]
      exact hrl
    rw [cell_set_eq hrl2, cell_set_eq hrl w]
    rcases toDatetimeCol_shape hconv w hw with rfl | ⟨t, tz, rfl⟩
    · exact Or.inl rfl
    · exact Or.inr ⟨t, rfl⟩

/-- Folding the loop body over columns other than `i` leaves column `i`
alone. -/
theorem foldl_preprocessCol_untouched
    (parse : String → Option (Int × Option Int)) (l : List Nat)
    (df : DataFrame) (i : Nat) (hnot : i ∉ l) :
    dtypeOf (l.foldl (preprocessCol parse) df) i = dtypeOf df i ∧
    colValues (l.foldl (preprocessCol parse) df) i = colValues df i := by
  induction l generalizing df with
  | nil => exact ⟨rfl, rfl⟩
  | cons j t ih =>
    have hji : j ≠ i := fun h => hnot (h ▸ List.mem_cons_self j t)
    have hu : dtypeOf (preprocessCol parse df j) i = dtypeOf df i ∧
        colValues (preprocessCol parse df j) i = colValues df i :=
      preprocessCol_untouched hji
    have ht := ih (preprocessCol parse df j)
      (fun h => hnot (List.mem_cons_of_mem j h))
    exact ⟨ht.1.trans hu.1, ht.2.trans hu.2⟩

/-- Folding the loop body keeps frames well-formed. -/
theorem foldl_preprocessCol_WF
    (parse : String → Option (Int × Option Int)) (l : List Nat)
    (df : DataFrame) (hWF : df.WF) :
    (l.foldl (preprocessCol parse) df).WF := by
  induction l generalizing df with
  | nil => exact hWF
  | cons j t ih => exact ih _ (preprocessCol_WF hWF)

/-- Folding the loop body keeps the number of header entries. -/
theorem foldl_preprocessCol_header_length
    (parse : String → Option (Int × Option Int)) (l : List Nat)
    (df : DataFrame) :
    (l.foldl (preprocessCol parse) df).header.length = df.header.length := by
  induction l generalizing df with
  | nil => rfl
  | cons j t ih =>
    exact (ih (preprocessCol parse df j)).trans preprocessCol_header_length

/-- The whole preprocessing pass converts an all-parsing object column
to a timezone-naive datetime column, whatever else it does. -/
theorem preprocess_converts (parse : String → Option (Int × Option Int))
    (df : DataFrame) (i : Nat) (vs : List Value)
    (hWF : df.WF) (hi : i < df.header.length)
    (hdt : dtypeOf df i = Dtype.object)
    (hconv : toDatetimeCol parse (colValues df i) = some vs) :
    dtypeOf (preprocess parse df) i = Dtype.datetime ∧
    ∀ v ∈ colValues (preprocess parse df) i,
      v = Value.null ∨ ∃ t : Int, v = Value.time t none := by
  unfold preprocess
  obtain ⟨k, hk⟩ : ∃ k, df.header.length = i + (k + 1) :=
    ⟨df.header.length - i - 1, by omega⟩
  rw [hk, List.range_add, List.foldl_append, List.range_succ_eq_map]
  have hfront : i ∉ List.range i := by
    simp [List.mem_range]
  set dfA := (List.range i).foldl (preprocessCol parse) df with hdfA
  have huA := foldl_preprocessCol_untouched parse (List.range i) df i hfront
  have hWFA : dfA.WF := foldl_preprocessCol_WF parse (List.range i) df hWF
  have hiA : i < dfA.header.length := by
    rw [foldl_preprocessCol_header_length]
    omega
  have hconvA : toDatetimeCol parse (colValues dfA i) = some vs := by
    rw [huA.2]
    exact hconv
  have hdtA : dtypeOf dfA i = Dtype.object := huA.1.trans hdt
  have hcv := preprocessCol_converts hWFA hiA hdtA hconvA
  have hsplit : ((0 :: (List.range k).map Nat.succ).map (i + ·)).foldl
      (preprocessCol parse) dfA =
      (((List.range k).map Nat.succ).map (i + ·)).foldl (preprocessCol parse)
        (preprocessCol parse dfA i) := by
    simp only [List.map_cons, List.foldl_cons, Nat.add_zero]
  rw [hsplit]
  have hbackt : i ∉ ((List.range k).map Nat.succ).map (i + ·) := by
    intro hmem
    obtain ⟨x, hx, hx2⟩ := List.mem_map.mp hmem
    obtain ⟨y, hy, rfl⟩ := List.mem_map.mp hx
    omega
  have huB := foldl_preprocessCol_untouched parse
    (((List.range k).map Nat.succ).map (i + ·)) (preprocessCol parse dfA i)
    i hbackt
  refine ⟨huB.1.trans hcv.1, fun v hv => ?_⟩
  rw [huB.2] at hv
  exact hcv.2 v hv

/-- C9: whenever the filter pass runs (checkbox on), every object-dtyped
column whose values all parse as date/times comes out of the pass in
datetime representation with every timezone offset discarded — selected
for filtering or not — so the returned frame's column representations
can differ from the input's even when no predicate is applied. -/
theorem filter_pass_converts_unselected
    (parse : String → Option (Int × Option Int)) (sel : List String)
    (params : String → FilterParam) (df out : DataFrame) (i : Nat)
    (vs : List Value)
    (hWF : df.WF) (hi : i < df.header.length)
    (hdt : dtypeOf df i = Dtype.object)
    (hconv : toDatetimeCol parse (colValues df i) = some vs)
    (hrun : filterDataframe parse true sel params df = some out) :
    dtypeOf out i = Dtype.datetime ∧
    ∀ r ∈ out.rows,
      cell r i = Value.null ∨ ∃ t : Int, cell r i = Value.time t none := by
  have hrun2 : applyFilters sel params (preprocess parse df) = some out := hrun
  have hpre := preprocess_converts parse df i vs hWF hi hdt hconv
  have hh := applyFilters_header hrun2
  have hr := applyFilters_rows hrun2
  refine ⟨?_, fun r hrr => ?_⟩
  · unfold dtypeOf
    rw [hh]
    exact hpre.1
  · refine hpre.2 (cell r i) ?_
    unfold colValues
    exact List.mem_map.mpr ⟨r, hr.subset hrr, rfl⟩

/-- Witness for C9: a two-row object column of date strings (one with a
`+02:00` offset) comes out datetime-dtyped and timezone-naive even with
no column selected for filtering. -/
theorem filter_pass_converts_unselected_witness :
    dtypeOf dfConvOut 0 = Dtype.datetime ∧
    ∀ r ∈ dfConvOut.rows,
      cell r 0 = Value.null ∨ ∃ t : Int, cell r 0 = Value.time t none :=
  filter_pass_converts_unselected parseTwo [] (fun _ => FilterParam.text "")
    dfConv dfConvOut 0 [Value.time 100 none, Value.time 252 (some 120)]
    (by decide) (by decide) (by decide) (by decide) (by decide)
